import Mathlib

/-!
Verification development for `vite-plugin-vue-transition-root-validator`.

Shallow embedding of the plugin's client (`src/client.ts`) and server
(`configureServer` in the plugin entry) halves:

* `Payload`, `mapSet`/`mapDelete`/`mapLookup` — the client's
  `pendingPayloads : Map<string, Payload>` modelled as an association list
  with JS `Map` semantics (set replaces in place, delete removes the entry).
* `ClientState`, `send`, `retryTimerFire`, `handleConnectEvent`,
  `handleAckEvent` — the delivery queue with its shared retry timer and
  exponential backoff (`retryDelayMs`, floor 200, cap 2000).
* `warnHandler` — the Vue warn hook installed by `setupVueRootValidator`,
  with its 500ms/key debounce and the key/message truncations.
* `handleIncoming` — the server's `ws.on` handler: per-connection dedup of
  the last key, error-overlay forwarding, and acknowledgment.

Strings are modelled as sequences of characters; JS `slice(0, n)` on the
relevant ASCII-or-BMP text is `sliceTo`.  Timestamps (`Date.now()`) are
explicit `Nat` arguments; `now - last > 500` agrees with the JS check on
all inputs because both a negative JS difference and a truncated `Nat`
difference fail the `> 500` test.
-/

/-- Interface language, `type Lang = 'en' | 'zh'` from `types.ts`. -/
inductive Lang where
  | en
  | zh
deriving DecidableEq, Repr

/-- HMR message payload sent by the client (`type Payload` in `client.ts`). -/
structure Payload where
  key : String
  message : String
  lang : Lang
deriving DecidableEq, Repr

/-- JS `s.slice(0, n)`: the first `n` characters of `s`. -/
def sliceTo (s : String) (n : Nat) : String :=
  String.mk (s.toList.take n)

/-- `pat` is a prefix of `hay` (character lists). -/
def hasPrefixCh : List Char → List Char → Bool
  | _, [] => true
  | [], _ :: _ => false
  | c :: cs, d :: ds => c == d && hasPrefixCh cs ds

/-- `needle` occurs somewhere inside the character list. -/
def containsSubstrCh (needle : List Char) : List Char → Bool
  | [] => needle.isEmpty
  | c :: t => hasPrefixCh (c :: t) needle || containsSubstrCh needle t

/-- JS `hay.includes(needle)` for the strings this plugin compares. -/
def containsSubstr (hay needle : String) : Bool :=
  containsSubstrCh needle.toList hay.toList

/-- JS `Array.prototype.join(sep)`. -/
def joinWith (sep : String) : List String → String
  | [] => ""
  | [a] => a
  | a :: b :: rest => a ++ sep ++ joinWith sep (b :: rest)

/-- JS `Map.prototype.set k v` on an association list: replace the entry
holding `k` in place, or append a new entry at the end. -/
def mapSet (k : String) (v : Payload) : List (String × Payload) → List (String × Payload)
  | [] => [(k, v)]
  | (k', v') :: t => if k' = k then (k, v) :: t else (k', v') :: mapSet k v t

/-- JS `Map.prototype.delete k`: remove the entry holding `k`. -/
def mapDelete (k : String) : List (String × Payload) → List (String × Payload)
  | [] => []
  | (k', v') :: t => if k' = k then t else (k', v') :: mapDelete k t

/-- JS `Map.prototype.get k`. -/
def mapLookup (k : String) : List (String × Payload) → Option Payload
  | [] => none
  | (k', v') :: t => if k' = k then some v' else mapLookup k t

/-! ## i18n (`i18n.ts`) -/

/-- Context handed to the message formatter (`TransitionRootMessageContext`). -/
structure TransitionRootMessageContext where
  file : Option String
  url : Option String
  routeKey : Option String
  component : Option String
deriving DecidableEq, Repr

/-- `getMessageHeader` from `i18n.ts`: the overlay header per language. -/
def getMessageHeader : Lang → String
  | Lang.zh => "[vite-plugin-vue-transition-root-validator] 检测到 Vue Transition 多根节点错误"
  | Lang.en => "[vite-plugin-vue-transition-root-validator] Vue Transition Multiple Root Nodes Error"

/-- `formatTransitionRootMessage` from `i18n.ts`: builds the full
human-readable diagnostic text from the extracted context. -/
def formatTransitionRootMessage (lang : Lang) (ctx : TransitionRootMessageContext) : String :=
  match lang with
  | Lang.zh =>
    let title := "Vue <Transition> 要求插槽内容具有单一的“元素根节点”。"
    let lines₁ := [title]
    let lines₂ := lines₁ ++ (match ctx.file with
      | some f => ["\n文件: " ++ f]
      | none => [])
    let lines₃ := lines₂ ++ (match ctx.url with
      | some u => ["URL: " ++ u]
      | none => [])
    let meta := (match ctx.component with
      | some c => ["component=" ++ c]
      | none => []) ++ (match ctx.routeKey with
      | some k => ["key=" ++ k]
      | none => [])
    let lines₄ := lines₃ ++ (if meta = [] then [] else ["上下文: " ++ joinWith " " meta])
    let fix := "\n如何修复:\n" ++ "- 在" ++
      (match ctx.file with
        | some f => "文件 " ++ f
        | none => "该组件") ++
      "的 <template> 最外层添加一个容器标签（如 <div> / <main>），把所有内容包起来，确保最终只渲染出一个根“标签元素”。\n" ++
      "- 根节点不能是多个并列元素（Fragment/多根），也不能是纯文本或注释。\n" ++
      "- 如果根部使用了 v-if / v-else，确保每个分支都只渲染一个根标签元素。"
    let why := "\n为什么会这样:\n" ++
      "Vue 的 <Transition> 需要把过渡 class 应用在一个真实的 DOM 元素上；" ++
      "当插槽内容渲染出的根节点不是“单一元素”（例如 Fragment、多根、纯文本或注释）时，就无法执行进入/离开过渡。"
    let docs := "\n相关文档:\nhttps://cn.vuejs.org/guide/built-ins/transition#the-transition-component"
    joinWith "\n" (lines₄ ++ [fix, why, docs])
  | Lang.en =>
    let title := "Vue <Transition> requires a single element root node in its slot."
    let lines₁ := [title]
    let lines₂ := lines₁ ++ (match ctx.file with
      | some f => ["\nFile: " ++ f]
      | none => [])
    let lines₃ := lines₂ ++ (match ctx.url with
      | some u => ["URL: " ++ u]
      | none => [])
    let meta := (match ctx.component with
      | some c => ["component=" ++ c]
      | none => []) ++ (match ctx.routeKey with
      | some k => ["key=" ++ k]
      | none => [])
    let lines₄ := lines₃ ++ (if meta = [] then [] else ["Context: " ++ joinWith " " meta])
    let fix := "\nHow to fix:\n" ++ "- In the <template> of " ++
      (match ctx.file with
        | some f => "file " ++ f
        | none => "this component") ++
      ", wrap everything with a single container element (e.g. <div> / <main>), so the final render has exactly one root *element*.\n" ++
      "- The root cannot be a Fragment (multiple siblings), plain text, or a comment.\n" ++
      "- If you use v-if / v-else at the root, ensure each branch renders exactly one root element."
    let why := "\nWhy this happens:\n" ++
      "Vue <Transition> needs to apply transition classes to a real DOM element. " ++
      "If the slot content renders a non-element root (Fragment/multiple roots/text/comment), Vue cannot animate it."
    let docs := "\nDocs:\nhttps://cn.vuejs.org/guide/built-ins/transition#the-transition-component"
    joinWith "\n" (lines₄ ++ [fix, why, docs])

/-! ## Signal extraction (`client.ts`) -/

/-- The fixed marker string `VUE_TRANSITION_WARN` from `client.ts`. -/
def VUE_TRANSITION_WARN : String :=
  "Component inside <Transition> renders non-element root node that cannot be animated."

/-- Scanner realising the regex `at <([^\s>]+)` of `extractComponentName`:
try each position left to right; on a match of the literal `at <` followed
by at least one character that is neither whitespace nor a closing angle
bracket, capture the maximal such run. -/
def componentNameScan : List Char → Option (List Char)
  | [] => none
  | c :: t =>
    if hasPrefixCh (c :: t) ("at <".toList) then
      let name := (t.drop 3).takeWhile (fun ch => !(ch.isWhitespace || ch == '>'))
      if name.isEmpty then componentNameScan t else some name
    else componentNameScan t

/-- `extractComponentName` from `client.ts`. -/
def extractComponentName (text : String) : Option String :=
  (componentNameScan text.toList).map String.mk

/-- Scanner realising the regex `key="([^"]+)"` of `extractRouteKey`:
the capture is a maximal non-empty run of non-quote characters that must
be followed by a closing quote. -/
def routeKeyScan : List Char → Option (List Char)
  | [] => none
  | c :: t =>
    if hasPrefixCh (c :: t) ("key=\"".toList) then
      let rest := t.drop 4
      let v := rest.takeWhile (fun ch => ch ≠ '"')
      if v.isEmpty then routeKeyScan t
      else
        match rest.drop v.length with
        | [] => routeKeyScan t
        | _ :: _ => some v
    else routeKeyScan t

/-- `extractRouteKey` from `client.ts`. -/
def extractRouteKey (text : String) : Option String :=
  (routeKeyScan text.toList).map String.mk

/-- The slice of a Vue component instance the client reads:
`$options.__file` and `$el?.baseURI`. -/
structure ComponentPublicInstance where
  file : Option String
  baseURI : Option String
deriving DecidableEq, Repr

/-- `guessViewFileFromInstance` from `client.ts`. -/
def guessViewFileFromInstance (inst : Option ComponentPublicInstance) : Option String :=
  inst.bind (fun i => i.file)

/-- `getViewUrlFromInstance` from `client.ts`. -/
def getViewUrlFromInstance (inst : Option ComponentPublicInstance) : Option String :=
  inst.bind (fun i => i.baseURI)

/-! ## Delivery queue (`client.ts` module state and functions) -/

/-- The fixed transport environment of one client session:
whether `import.meta.hot` exists with a `send` function, whether it has an
`on` function, and whether `hot.send` completes without throwing. -/
structure HotEnv where
  hotSend : Bool
  hotOn : Bool
  sendOk : Bool
deriving DecidableEq, Repr

/-- The module-level mutable state of `client.ts`:
`pendingPayloads`, `listenersBound`, `retryTimer` (armed or not),
`retryDelayMs`. -/
structure ClientState where
  pendingPayloads : List (String × Payload)
  listenersBound : Bool
  retryTimerArmed : Bool
  retryDelayMs : Nat
deriving DecidableEq, Repr

/-- Module initialisation values of `client.ts`. -/
def initialClientState : ClientState :=
  { pendingPayloads := [], listenersBound := false, retryTimerArmed := false, retryDelayMs := 200 }

/-- `trySendNow` from `client.ts`: `false` when `hot?.send` is missing,
otherwise `true` unless `hot.send` throws (caught and turned into `false`). -/
def trySendNow (env : HotEnv) (_payload : Payload) : Bool :=
  env.hotSend && env.sendOk

/-- `scheduleRetry` from `client.ts`, state effect: arm the single shared
timer unless one is already armed (early return on `retryTimer !== null`). -/
def scheduleRetry (s : ClientState) : ClientState :=
  if s.retryTimerArmed then s else { s with retryTimerArmed := true }

/-- `flushPendingPayloads` from `client.ts`: the list of payloads for which
`trySendNow` is invoked (early return when the map is empty; the state is
not modified — results of the attempts are ignored). -/
def flushPendingPayloads (s : ClientState) : List Payload :=
  if s.pendingPayloads = [] then [] else s.pendingPayloads.map Prod.snd

/-- `bindHmrListenersOnce` from `client.ts`, state effect: set
`listenersBound` (the `hot.on` registrations themselves are modelled as the
`wsConnect`/`ackArrive` transitions below). -/
def bindHmrListenersOnce (s : ClientState) : ClientState :=
  if s.listenersBound then s else { s with listenersBound := true }

/-- The `vite:ws:connect` listener from `bindHmrListenersOnce`: reset the
backoff delay to the 200ms floor, clear any armed timer, then flush; returns
the new state and the payloads attempted by the flush. -/
def handleConnectEvent (s : ClientState) : ClientState × List Payload :=
  let s₁ := { s with retryDelayMs := 200, retryTimerArmed := false }
  (s₁, flushPendingPayloads s₁)

/-- The acknowledgment listener from `bindHmrListenersOnce`:
`data?.key` falsy (absent or the empty string) is ignored; otherwise the key
is deleted from `pendingPayloads`, and if the map became empty the delay is
reset to 200ms and any armed timer is cleared. -/
def handleAckEvent (s : ClientState) (ackKey : Option String) : ClientState :=
  match ackKey with
  | none => s
  | some k =>
    if k = "" then s
    else
      let pending := mapDelete k s.pendingPayloads
      if pending = [] then
        { s with pendingPayloads := pending, retryDelayMs := 200, retryTimerArmed := false }
      else
        { s with pendingPayloads := pending }

/-- The timer callback armed by `scheduleRetry`: null the timer handle,
flush, and if payloads remain double the delay (capped at 2000ms) and
re-arm; returns the new state and the payloads attempted by the flush. -/
def retryTimerFire (s : ClientState) : ClientState × List Payload :=
  let s₁ := { s with retryTimerArmed := false }
  let sent := flushPendingPayloads s₁
  if s₁.pendingPayloads = [] then (s₁, sent)
  else
    let s₂ := { s₁ with retryDelayMs := min (s₁.retryDelayMs * 2) 2000 }
    (scheduleRetry s₂, sent)

/-- `send` from `client.ts`: early return when `hot?.send` is missing;
otherwise bind listeners once, insert/replace the payload under its key,
attempt one immediate send (`trySendNow`, result ignored), and arm the
retry timer if not already armed.  Returns the new state and the payloads
for which an immediate send was attempted. -/
def send (env : HotEnv) (s : ClientState) (p : Payload) : ClientState × List Payload :=
  if env.hotSend then
    let s₁ := bindHmrListenersOnce s
    let s₂ := { s₁ with pendingPayloads := mapSet p.key p s₁.pendingPayloads }
    (scheduleRetry s₂, [p])
  else (s, [])

/-- One observable client transition: a caller submits a payload
(`send`), the armed retry timer fires, the `vite:ws:connect` event arrives,
an acknowledgment arrives, or `setupVueRootValidator` binds the listeners.
Payload keys are non-empty per the spec constraint on `submit`; the
connect/ack listeners can only fire once bound and when `hot.on` exists. -/
inductive ClientStep (env : HotEnv) : ClientState → ClientState → Prop
  | submit (s : ClientState) (p : Payload) (hk : p.key ≠ "") :
      ClientStep env s (send env s p).1
  | timerFire (s : ClientState) (h : s.retryTimerArmed = true) :
      ClientStep env s (retryTimerFire s).1
  | wsConnect (s : ClientState) (hb : s.listenersBound = true) (ho : env.hotOn = true) :
      ClientStep env s (handleConnectEvent s).1
  | ackArrive (s : ClientState) (k : Option String) (hb : s.listenersBound = true)
      (ho : env.hotOn = true) :
      ClientStep env s (handleAckEvent s k)
  | bindListeners (s : ClientState) :
      ClientStep env s (bindHmrListenersOnce s)

/-- States reachable from module initialisation by client transitions. -/
inductive ClientReachable (env : HotEnv) : ClientState → Prop
  | init : ClientReachable env initialClientState
  | step {s t : ClientState} (hr : ClientReachable env s) (hs : ClientStep env s t) :
      ClientReachable env t

/-- Invariant of the delivery queue:
an armed timer implies a non-empty pending map; the backoff delay stays in
`[200, 2000]`; an empty pending map coincides with the floor delay and a
cleared timer; keys are pairwise distinct; every stored payload is stored
under its own non-empty key. -/
def ClientInv (s : ClientState) : Prop :=
  (s.retryTimerArmed = true → s.pendingPayloads ≠ []) ∧
  (200 ≤ s.retryDelayMs ∧ s.retryDelayMs ≤ 2000) ∧
  (s.pendingPayloads = [] → s.retryDelayMs = 200 ∧ s.retryTimerArmed = false) ∧
  (s.pendingPayloads.map Prod.fst).Nodup ∧
  (∀ kp ∈ s.pendingPayloads, kp.2.key = kp.1 ∧ kp.1 ≠ "")

/-! ## The Vue warn handler installed by `setupVueRootValidator` -/

/-- The debounce state captured by the closure in `setupVueRootValidator`:
`lastSentAt`, `lastSentKey`, `errorSent`. -/
structure WarnState where
  lastSentAt : Nat
  lastSentKey : String
  errorSent : Bool
deriving DecidableEq, Repr

/-- Closure state at `setupVueRootValidator` time:
`lastSentAt = 0`, `lastSentKey = ''`, `errorSent = false`. -/
def initialWarnState : WarnState :=
  { lastSentAt := 0, lastSentKey := "", errorSent := false }

/-- `app.config.warnHandler` from `setupVueRootValidator` (`client.ts`):
skip when one-shot mode already fired; skip non-matching warnings; debounce
on `now - lastSentAt > 500 || key !== lastSentKey`; on acceptance extract
context, format the message and produce the payload handed to `send`
(key is the first 800 characters of the message).  Returns the new debounce
state and the produced payload, if any.  The unconditional call to the
previously-registered warn handler (`resendLog`) has no effect on this
state and is not modelled. -/
def warnHandler (lang : Lang) (disableAfterFirstError : Bool) (w : WarnState)
    (msg : String) (inst : Option ComponentPublicInstance) (trace : String)
    (now : Nat) : WarnState × Option Payload :=
  if disableAfterFirstError && w.errorSent then (w, none)
  else if !(containsSubstr msg VUE_TRANSITION_WARN) then (w, none)
  else
    let text := msg ++ trace
    let key := sliceTo text 400
    if 500 < now - w.lastSentAt ∨ key ≠ w.lastSentKey then
      let routeKey := extractRouteKey trace
      let component := extractComponentName trace
      let file := guessViewFileFromInstance inst
      let url := getViewUrlFromInstance inst
      let message := formatTransitionRootMessage lang
        { file := file, url := url, routeKey := routeKey, component := component }
      ({ lastSentAt := now, lastSentKey := key, errorSent := true },
        some { key := sliceTo message 800, message := message, lang := lang })
    else (w, none)

/-! ## Server side: `configureServer` in the plugin entry -/

/-- The slice of a Vite websocket client object the handler uses: whether
`client.send` exists (`client?.send?.(...)` and `client?.send` guards). -/
structure DevClientLike where
  hasSend : Bool
deriving DecidableEq, Repr

/-- `ClientReportPayload` from the plugin entry: `message` (checked for
falsiness, so modelled as optional), optional `key`, optional `lang`. -/
structure ClientReportPayload where
  message : Option String
  key : Option String
  lang : Option Lang
deriving DecidableEq, Repr

/-- Observable server-side sends: a targeted error overlay
(`client.send(payload)`), a broadcast error overlay (`server.ws.send`),
or an acknowledgment to the reporting client. -/
inductive ServerOut where
  | overlayToClient (header stack : String)
  | overlayBroadcast (header stack : String)
  | ackToClient (key : String)
deriving DecidableEq, Repr

/-- `sendErrorOverlay` from the plugin entry: build the error payload with
`getMessageHeader` as `err.message` and the reported text as `err.stack`;
send it to the client directly when `client?.send` exists, otherwise
broadcast over `server.ws`. -/
def sendErrorOverlay (lang : Lang) (message : String)
    (client : Option DevClientLike) : List ServerOut :=
  match client with
  | some c =>
    if c.hasSend then [ServerOut.overlayToClient (getMessageHeader lang) message]
    else [ServerOut.overlayBroadcast (getMessageHeader lang) message]
  | none => [ServerOut.overlayBroadcast (getMessageHeader lang) message]

/-- The optional acknowledgment send `(client)?.send?.('…:ack', { key })`. -/
def ackOut (client : DevClientLike) (key : String) : List ServerOut :=
  if client.hasSend then [ServerOut.ackToClient key] else []

/-- The `server.ws.on('…:vue-warn', …)` handler registered by
`configureServer`: drop falsy `payload?.message`; compute the dedup key
(`payload.key ?? payload.message.slice(0, 800)`); when it equals the
connection's recorded `lastKey`, only acknowledge; otherwise record the
key, send the error overlay targeted at the connection, then acknowledge.
Takes and returns the connection's `lastByClient` slot, together with the
list of sends performed. -/
def handleIncoming (client : DevClientLike) (payload : ClientReportPayload)
    (lastKey : Option String) : Option String × List ServerOut :=
  match payload.message with
  | none => (lastKey, [])
  | some m =>
    if m = "" then (lastKey, [])
    else
      let key := payload.key.getD (sliceTo m 800)
      if lastKey = some key then
        (lastKey, ackOut client key)
      else
        let effectiveLang := payload.lang.getD Lang.en
        (some key, sendErrorOverlay effectiveLang m (some client) ++ ackOut client key)

/-- `true` exactly on the outputs that reach the Presentation Sink
(error overlays, targeted or broadcast). -/
def isOverlayOut : ServerOut → Bool
  | ServerOut.overlayToClient _ _ => true
  | ServerOut.overlayBroadcast _ _ => true
  | ServerOut.ackToClient _ => false

/-- `true` exactly on acknowledgment sends. -/
def isAckOut : ServerOut → Bool
  | ServerOut.overlayToClient _ _ => false
  | ServerOut.overlayBroadcast _ _ => false
  | ServerOut.ackToClient _ => true

/-- Number of forwards to the Presentation Sink in a list of sends. -/
def countOverlays (l : List ServerOut) : Nat :=
  (l.filter isOverlayOut).length

/-- Number of acknowledgments in a list of sends. -/
def countAcks (l : List ServerOut) : Nat :=
  (l.filter isAckOut).length

/-! ## Warn handler acceptance context -/

/-- The context extracted by the warn handler on acceptance (abbreviates
the four extractions performed in the accept branch). -/
def warnContext (inst : Option ComponentPublicInstance) (trace : String) :
    TransitionRootMessageContext :=
  { file := guessViewFileFromInstance inst, url := getViewUrlFromInstance inst,
    routeKey := extractRouteKey trace, component := extractComponentName trace }

/-- The payload handed to `send` by the warn handler on acceptance:
the formatted message, with the first 800 characters as dedup key. -/
def warnPayload (lang : Lang) (inst : Option ComponentPublicInstance)
    (trace : String) : Payload :=
  { key := sliceTo (formatTransitionRootMessage lang (warnContext inst trace)) 800,
    message := formatTransitionRootMessage lang (warnContext inst trace),
    lang := lang }


/-! ## Lemmas about the JS map model -/

theorem mapSet_ne_nil (k : String) (v : Payload) (l : List (String × Payload)) :
    mapSet k v l ≠ [] := by
  cases l with
  | nil => simp [mapSet]
  | cons h t =>
    obtain ⟨k', v'⟩ := h
    simp only [mapSet]
    split <;> simp

theorem mapSet_keys (k : String) (v : Payload) (l : List (String × Payload)) :
    (mapSet k v l).map Prod.fst =
      if k ∈ l.map Prod.fst then l.map Prod.fst else l.map Prod.fst ++ [k] := by
  induction l with
  | nil => simp [mapSet]
  | cons h t ih =>
    obtain ⟨k', v'⟩ := h
    by_cases hk : k' = k
    · subst hk
      simp [mapSet]
    · simp only [mapSet, if_neg hk, List.map_cons]
      rw [ih]
      by_cases hmem : k ∈ t.map Prod.fst
      · rw [if_pos hmem, if_pos (List.mem_cons_of_mem _ hmem)]
      · rw [if_neg hmem, if_neg (by
          simp only [List.mem_cons]
          push_neg
          exact ⟨fun hh => hk hh.symm, hmem⟩)]
        simp

theorem mapSet_keys_nodup (k : String) (v : Payload) (l : List (String × Payload))
    (h : (l.map Prod.fst).Nodup) : ((mapSet k v l).map Prod.fst).Nodup := by
  rw [mapSet_keys]
  split
  · exact h
  · next hmem =>
      rw [List.nodup_append]
      refine ⟨h, List.nodup_singleton k, ?_⟩
      intro a ha hb
      rw [List.mem_singleton] at hb
      exact hmem (hb ▸ ha)

theorem mapSet_lookup_self (k : String) (v : Payload) (l : List (String × Payload)) :
    mapLookup k (mapSet k v l) = some v := by
  induction l with
  | nil => simp [mapSet, mapLookup]
  | cons h t ih =>
    obtain ⟨k', v'⟩ := h
    by_cases hk : k' = k
    · subst hk
      simp [mapSet, mapLookup]
    · simp [mapSet, mapLookup, hk, ih]

theorem mapSet_length_of_mem (k : String) (v : Payload) :
    ∀ (l : List (String × Payload)), k ∈ l.map Prod.fst →
      (mapSet k v l).length = l.length := by
  intro l
  induction l with
  | nil => intro h; simp at h
  | cons hd t ih =>
    obtain ⟨k', v'⟩ := hd
    intro h
    by_cases hk : k' = k
    · subst hk
      simp [mapSet]
    · simp only [List.map_cons, List.mem_cons] at h
      rcases h with h | h
      · exact absurd h.symm hk
      · simp [mapSet, hk, ih h]

theorem mapSet_mem (k : String) (v : Payload) :
    ∀ (l : List (String × Payload)), (l.map Prod.fst).Nodup →
      ∀ e ∈ mapSet k v l, e = (k, v) ∨ (e ∈ l ∧ e.1 ≠ k) := by
  intro l
  induction l with
  | nil =>
    intro _ e he
    simp [mapSet] at he
    exact Or.inl he
  | cons hd t ih =>
    obtain ⟨k', v'⟩ := hd
    intro hnd e he
    by_cases hk : k' = k
    · subst hk
      have hms : mapSet k' v ((k', v') :: t) = (k', v) :: t := by simp [mapSet]
      rw [hms] at he
      rcases List.mem_cons.mp he with he | he
      · exact Or.inl he
      · have hk2 : k' ∉ t.map Prod.fst := by
          simp only [List.map_cons, List.nodup_cons] at hnd
          exact hnd.1
        right
        exact ⟨List.mem_cons_of_mem _ he,
          fun hc => hk2 (hc ▸ List.mem_map_of_mem Prod.fst he)⟩
    · have hms : mapSet k v ((k', v') :: t) = (k', v') :: mapSet k v t := by
        simp [mapSet, hk]
      rw [hms] at he
      rcases List.mem_cons.mp he with rfl | he
      · exact Or.inr ⟨List.mem_cons_self _ _, hk⟩
      · have hnd' : (t.map Prod.fst).Nodup := by
          simp only [List.map_cons, List.nodup_cons] at hnd
          exact hnd.2
        rcases ih hnd' e he with h | h
        · exact Or.inl h
        · exact Or.inr ⟨List.mem_cons_of_mem _ h.1, h.2⟩

theorem mapDelete_sublist (k : String) (l : List (String × Payload)) :
    (mapDelete k l).Sublist l := by
  induction l with
  | nil => simp [mapDelete]
  | cons hd t ih =>
    obtain ⟨k', v'⟩ := hd
    simp only [mapDelete]
    split
    · exact List.sublist_cons_self _ _
    · exact List.Sublist.cons₂ _ ih

theorem mapDelete_keys_nodup (k : String) (l : List (String × Payload))
    (h : (l.map Prod.fst).Nodup) : ((mapDelete k l).map Prod.fst).Nodup :=
  ((mapDelete_sublist k l).map Prod.fst).nodup h

theorem mapDelete_mem (k : String) (l : List (String × Payload)) :
    ∀ e ∈ mapDelete k l, e ∈ l :=
  fun _ he => (mapDelete_sublist k l).mem he

theorem mapDelete_not_mem (k : String) :
    ∀ (l : List (String × Payload)), k ∉ l.map Prod.fst → mapDelete k l = l := by
  intro l
  induction l with
  | nil => intro _; simp [mapDelete]
  | cons hd t ih =>
    obtain ⟨k', v'⟩ := hd
    intro h
    simp only [List.map_cons, List.mem_cons] at h
    push_neg at h
    have hk : ¬ k' = k := fun hc => h.1 hc.symm
    simp [mapDelete, hk, ih h.2]

/-! ## Projection lemmas for the client operations -/

@[simp] theorem bindHmr_pendingPayloads (s : ClientState) :
    (bindHmrListenersOnce s).pendingPayloads = s.pendingPayloads := by
  unfold bindHmrListenersOnce; split <;> rfl

@[simp] theorem bindHmr_retryTimerArmed (s : ClientState) :
    (bindHmrListenersOnce s).retryTimerArmed = s.retryTimerArmed := by
  unfold bindHmrListenersOnce; split <;> rfl

@[simp] theorem bindHmr_retryDelayMs (s : ClientState) :
    (bindHmrListenersOnce s).retryDelayMs = s.retryDelayMs := by
  unfold bindHmrListenersOnce; split <;> rfl

@[simp] theorem scheduleRetry_pendingPayloads (s : ClientState) :
    (scheduleRetry s).pendingPayloads = s.pendingPayloads := by
  unfold scheduleRetry; split <;> rfl

@[simp] theorem scheduleRetry_retryDelayMs (s : ClientState) :
    (scheduleRetry s).retryDelayMs = s.retryDelayMs := by
  unfold scheduleRetry; split <;> rfl

@[simp] theorem scheduleRetry_retryTimerArmed (s : ClientState) :
    (scheduleRetry s).retryTimerArmed = true := by
  unfold scheduleRetry; split <;> simp_all

theorem send_pendingPayloads (env : HotEnv) (s : ClientState) (p : Payload)
    (hh : env.hotSend = true) :
    (send env s p).1.pendingPayloads = mapSet p.key p s.pendingPayloads := by
  simp [send, hh]

theorem send_retryTimerArmed (env : HotEnv) (s : ClientState) (p : Payload)
    (hh : env.hotSend = true) : (send env s p).1.retryTimerArmed = true := by
  simp [send, hh]

theorem send_retryDelayMs (env : HotEnv) (s : ClientState) (p : Payload) :
    (send env s p).1.retryDelayMs = s.retryDelayMs := by
  by_cases hh : env.hotSend = true
  · simp [send, hh]
  · simp [send, hh]

theorem send_of_no_hot (env : HotEnv) (s : ClientState) (p : Payload)
    (hh : env.hotSend = false) : send env s p = (s, []) := by
  simp [send, hh]

theorem handleConnectEvent_fst (s : ClientState) :
    (handleConnectEvent s).1 = { s with retryDelayMs := 200, retryTimerArmed := false } := rfl

theorem retryTimerFire_fst_of_nil (s : ClientState) (h : s.pendingPayloads = []) :
    (retryTimerFire s).1 = { s with retryTimerArmed := false } := by
  simp [retryTimerFire, h]

theorem retryTimerFire_fst_of_ne (s : ClientState) (h : s.pendingPayloads ≠ []) :
    (retryTimerFire s).1 =
      scheduleRetry { s with retryTimerArmed := false, retryDelayMs := min (s.retryDelayMs * 2) 2000 } := by
  simp [retryTimerFire, h]

theorem retryTimerFire_snd (s : ClientState) :
    (retryTimerFire s).2 = flushPendingPayloads s := by
  by_cases h : s.pendingPayloads = []
  · simp [retryTimerFire, flushPendingPayloads, h]
  · simp [retryTimerFire, flushPendingPayloads, h]

theorem handleAckEvent_none (s : ClientState) : handleAckEvent s none = s := rfl

theorem handleAckEvent_empty_key (s : ClientState) : handleAckEvent s (some "") = s := by
  simp [handleAckEvent]

theorem handleAckEvent_some_of_nil (s : ClientState) (k : String) (hk : k ≠ "")
    (h : mapDelete k s.pendingPayloads = []) :
    handleAckEvent s (some k) =
      { s with pendingPayloads := mapDelete k s.pendingPayloads, retryDelayMs := 200, retryTimerArmed := false } := by
  simp [handleAckEvent, hk, h]

theorem handleAckEvent_some_of_ne (s : ClientState) (k : String) (hk : k ≠ "")
    (h : mapDelete k s.pendingPayloads ≠ []) :
    handleAckEvent s (some k) =
      { s with pendingPayloads := mapDelete k s.pendingPayloads } := by
  simp [handleAckEvent, hk, h]

/-! ## The delivery-queue invariant is preserved by every transition -/

theorem clientInv_init : ClientInv initialClientState := by
  refine ⟨?_, ?_, ?_, ?_, ?_⟩ <;> simp [initialClientState, ClientInv]

theorem clientInv_bind (s : ClientState) (h : ClientInv s) :
    ClientInv (bindHmrListenersOnce s) := by
  unfold bindHmrListenersOnce
  split
  · exact h
  · obtain ⟨harm, hdelay, hempty, hnd, hmem⟩ := h
    exact ⟨harm, hdelay, fun hc => hempty hc, hnd, hmem⟩

theorem clientInv_send (env : HotEnv) (s : ClientState) (p : Payload) (hk : p.key ≠ "")
    (h : ClientInv s) : ClientInv (send env s p).1 := by
  obtain ⟨harm, hdelay, hempty, hnd, hmem⟩ := h
  by_cases hh : env.hotSend = true
  · have h1 := send_pendingPayloads env s p hh
    have h2 := send_retryTimerArmed env s p hh
    have h3 := send_retryDelayMs env s p
    refine ⟨?_, ?_, ?_, ?_, ?_⟩
    · intro _
      rw [h1]
      exact mapSet_ne_nil _ _ _
    · rw [h3]
      exact hdelay
    · intro hc
      rw [h1] at hc
      exact absurd hc (mapSet_ne_nil _ _ _)
    · rw [h1]
      exact mapSet_keys_nodup _ _ _ hnd
    · intro kp hkp
      rw [h1] at hkp
      rcases mapSet_mem p.key p _ hnd kp hkp with rfl | hin
      · exact ⟨rfl, hk⟩
      · exact hmem kp hin.1
  · rw [send_of_no_hot env s p (by simpa using hh)]
    exact ⟨harm, hdelay, hempty, hnd, hmem⟩

theorem clientInv_timerFire (s : ClientState) (h : ClientInv s) :
    ClientInv (retryTimerFire s).1 := by
  obtain ⟨harm, hdelay, hempty, hnd, hmem⟩ := h
  by_cases hnil : s.pendingPayloads = []
  · rw [retryTimerFire_fst_of_nil s hnil]
    exact ⟨fun hc => by simp at hc, hdelay, fun _ => ⟨(hempty hnil).1, rfl⟩, hnd, hmem⟩
  · rw [retryTimerFire_fst_of_ne s hnil]
    refine ⟨fun _ => by simpa using hnil, ⟨?_, ?_⟩, fun hc => absurd (by simpa using hc) hnil,
      by simpa using hnd, ?_⟩
    · simp only [scheduleRetry_retryDelayMs]
      have := hdelay.1
      omega
    · simp only [scheduleRetry_retryDelayMs]
      omega
    · intro kp hkp
      exact hmem kp (by simpa using hkp)

theorem clientInv_connect (s : ClientState) (h : ClientInv s) :
    ClientInv (handleConnectEvent s).1 := by
  obtain ⟨_, _, _, hnd, hmem⟩ := h
  rw [handleConnectEvent_fst]
  exact ⟨fun hc => by simp at hc, by norm_num, fun _ => ⟨rfl, rfl⟩, hnd, hmem⟩

theorem clientInv_ack (s : ClientState) (k : Option String) (h : ClientInv s) :
    ClientInv (handleAckEvent s k) := by
  obtain ⟨harm, hdelay, hempty, hnd, hmem⟩ := h
  match k with
  | none => exact ⟨harm, hdelay, hempty, hnd, hmem⟩
  | some k =>
    by_cases hke : k = ""
    · subst hke
      rw [handleAckEvent_empty_key]
      exact ⟨harm, hdelay, hempty, hnd, hmem⟩
    · by_cases hnil : mapDelete k s.pendingPayloads = []
      · rw [handleAckEvent_some_of_nil s k hke hnil]
        refine ⟨fun hc => by simp at hc, by norm_num, fun _ => ⟨rfl, rfl⟩, ?_, ?_⟩
        · simpa using mapDelete_keys_nodup k s.pendingPayloads hnd
        · intro kp hkp
          simp only [] at hkp
          rw [hnil] at hkp
          simp at hkp
      · rw [handleAckEvent_some_of_ne s k hke hnil]
        refine ⟨fun _ => by simpa using hnil, hdelay, fun hc => absurd (by simpa using hc) hnil,
          by simpa using mapDelete_keys_nodup k s.pendingPayloads hnd, ?_⟩
        intro kp hkp
        exact hmem kp (mapDelete_mem k s.pendingPayloads kp (by simpa using hkp))

/-- Every reachable client state satisfies the delivery-queue invariant. -/
theorem clientInv_of_reachable (env : HotEnv) (s : ClientState)
    (hr : ClientReachable env s) : ClientInv s := by
  induction hr with
  | init => exact clientInv_init
  | step hr hs ih =>
    cases hs with
    | submit p hk => exact clientInv_send env _ p hk ih
    | timerFire h => exact clientInv_timerFire _ ih
    | wsConnect hb ho => exact clientInv_connect _ ih
    | ackArrive k hb ho => exact clientInv_ack _ k ih
    | bindListeners => exact clientInv_bind _ ih

/-! ## Server dispatch lemmas -/

theorem handleIncoming_eq_hit (client : DevClientLike) (p : ClientReportPayload)
    (lk : Option String) (m : String) (hm : p.message = some m) (hm0 : m ≠ "")
    (hl : lk = some (p.key.getD (sliceTo m 800))) :
    handleIncoming client p lk = (lk, ackOut client (p.key.getD (sliceTo m 800))) := by
  unfold handleIncoming
  rw [hm]
  simp only [if_neg hm0]
  rw [if_pos hl]

theorem handleIncoming_eq_miss (client : DevClientLike) (p : ClientReportPayload)
    (lk : Option String) (m : String) (hm : p.message = some m) (hm0 : m ≠ "")
    (hl : lk ≠ some (p.key.getD (sliceTo m 800))) :
    handleIncoming client p lk =
      (some (p.key.getD (sliceTo m 800)),
        sendErrorOverlay (p.lang.getD Lang.en) m (some client) ++
          ackOut client (p.key.getD (sliceTo m 800))) := by
  unfold handleIncoming
  rw [hm]
  simp only [if_neg hm0]
  rw [if_neg hl]

/-- Claim C1: for every connection and well-formed payload, if the payload's
key equals the connection's recorded last key, `handleIncoming` skips the
Presentation Sink but still acknowledges that key; otherwise it records the
key, forwards the overlay to the connection and acknowledges.  Two
consecutive calls with the identical key yield exactly one forward and two
acknowledgments; two consecutive calls with differing keys yield two
forwards.  (Connections are Vite websocket clients, which expose `send`.) -/
theorem handleIncoming_dedup_spec (client : DevClientLike) (hc : client.hasSend = true)
    (p q : ClientReportPayload) (m n : String) (lk : Option String)
    (hm : p.message = some m) (hm0 : m ≠ "") (hn : q.message = some n) (hn0 : n ≠ "") :
    (lk = some (p.key.getD (sliceTo m 800)) →
      handleIncoming client p lk = (lk, [ServerOut.ackToClient (p.key.getD (sliceTo m 800))])) ∧
    (lk ≠ some (p.key.getD (sliceTo m 800)) →
      handleIncoming client p lk =
        (some (p.key.getD (sliceTo m 800)),
          [ServerOut.overlayToClient (getMessageHeader (p.lang.getD Lang.en)) m,
           ServerOut.ackToClient (p.key.getD (sliceTo m 800))])) ∧
    (lk ≠ some (p.key.getD (sliceTo m 800)) →
      countOverlays ((handleIncoming client p lk).2 ++
        (handleIncoming client p (handleIncoming client p lk).1).2) = 1 ∧
      countAcks ((handleIncoming client p lk).2 ++
        (handleIncoming client p (handleIncoming client p lk).1).2) = 2) ∧
    (lk ≠ some (p.key.getD (sliceTo m 800)) →
      q.key.getD (sliceTo n 800) ≠ p.key.getD (sliceTo m 800) →
      countOverlays ((handleIncoming client p lk).2 ++
        (handleIncoming client q (handleIncoming client p lk).1).2) = 2) := by
  have hack : ackOut client (p.key.getD (sliceTo m 800)) =
      [ServerOut.ackToClient (p.key.getD (sliceTo m 800))] := by
    simp [ackOut, hc]
  have hover : sendErrorOverlay (p.lang.getD Lang.en) m (some client) =
      [ServerOut.overlayToClient (getMessageHeader (p.lang.getD Lang.en)) m] := by
    simp [sendErrorOverlay, hc]
  refine ⟨?_, ?_, ?_, ?_⟩
  · intro hl
    rw [handleIncoming_eq_hit client p lk m hm hm0 hl, hack]
  · intro hl
    rw [handleIncoming_eq_miss client p lk m hm hm0 hl, hover, hack]
    rfl
  · intro hl
    have h1 := handleIncoming_eq_miss client p lk m hm hm0 hl
    have h2 : handleIncoming client p (handleIncoming client p lk).1 =
        ((handleIncoming client p lk).1,
          [ServerOut.ackToClient (p.key.getD (sliceTo m 800))]) := by
      rw [handleIncoming_eq_hit client p (handleIncoming client p lk).1 m hm hm0 (by rw [h1])]
      rw [hack]
    rw [h1] at h2 ⊢
    rw [h2, hover, hack]
    constructor
    · simp [countOverlays, isOverlayOut]
    · simp [countAcks, isAckOut]
  · intro hl hq
    have h1 := handleIncoming_eq_miss client p lk m hm hm0 hl
    have h2 : handleIncoming client q (handleIncoming client p lk).1 =
        (some (q.key.getD (sliceTo n 800)),
          sendErrorOverlay (q.lang.getD Lang.en) n (some client) ++
            ackOut client (q.key.getD (sliceTo n 800))) := by
      refine handleIncoming_eq_miss client q _ n hn hn0 ?_
      rw [h1]
      simp
      intro hcontra
      exact hq hcontra.symm
    have hackq : ackOut client (q.key.getD (sliceTo n 800)) =
        [ServerOut.ackToClient (q.key.getD (sliceTo n 800))] := by
      simp [ackOut, hc]
    have hoverq : sendErrorOverlay (q.lang.getD Lang.en) n (some client) =
        [ServerOut.overlayToClient (getMessageHeader (q.lang.getD Lang.en)) n] := by
      simp [sendErrorOverlay, hc]
    rw [h1] at h2 ⊢
    rw [h2, hover, hack, hackq, hoverq]
    simp [countOverlays, isOverlayOut]

/-- Witness for C1 at a concrete connection, two payloads and an empty
dedup slot. -/
theorem handleIncoming_dedup_spec_witness :
    ((none : Option String) = some ((some "k1").getD (sliceTo "m1" 800)) →
      handleIncoming ⟨true⟩ ⟨some "m1", some "k1", some Lang.en⟩ none =
        (none, [ServerOut.ackToClient ((some "k1").getD (sliceTo "m1" 800))])) ∧
    ((none : Option String) ≠ some ((some "k1").getD (sliceTo "m1" 800)) →
      handleIncoming ⟨true⟩ ⟨some "m1", some "k1", some Lang.en⟩ none =
        (some ((some "k1").getD (sliceTo "m1" 800)),
          [ServerOut.overlayToClient (getMessageHeader ((some Lang.en).getD Lang.en)) "m1",
           ServerOut.ackToClient ((some "k1").getD (sliceTo "m1" 800))])) ∧
    ((none : Option String) ≠ some ((some "k1").getD (sliceTo "m1" 800)) →
      countOverlays ((handleIncoming ⟨true⟩ ⟨some "m1", some "k1", some Lang.en⟩ none).2 ++
        (handleIncoming ⟨true⟩ ⟨some "m1", some "k1", some Lang.en⟩
          (handleIncoming ⟨true⟩ ⟨some "m1", some "k1", some Lang.en⟩ none).1).2) = 1 ∧
      countAcks ((handleIncoming ⟨true⟩ ⟨some "m1", some "k1", some Lang.en⟩ none).2 ++
        (handleIncoming ⟨true⟩ ⟨some "m1", some "k1", some Lang.en⟩
          (handleIncoming ⟨true⟩ ⟨some "m1", some "k1", some Lang.en⟩ none).1).2) = 2) ∧
    ((none : Option String) ≠ some ((some "k1").getD (sliceTo "m1" 800)) →
      (some "k2").getD (sliceTo "m2" 800) ≠ (some "k1").getD (sliceTo "m1" 800) →
      countOverlays ((handleIncoming ⟨true⟩ ⟨some "m1", some "k1", some Lang.en⟩ none).2 ++
        (handleIncoming ⟨true⟩ ⟨some "m2", some "k2", none⟩
          (handleIncoming ⟨true⟩ ⟨some "m1", some "k1", some Lang.en⟩ none).1).2) = 2) :=
  handleIncoming_dedup_spec ⟨true⟩ rfl ⟨some "m1", some "k1", some Lang.en⟩
    ⟨some "m2", some "k2", none⟩ "m1" "m2" none rfl (by decide) rfl (by decide)

/-- Claim C9: on a connection exposing `send` (every Vite websocket
connection), a forwarded overlay is sent to that connection specifically
(`client.send`) and never broadcast to all connections. -/
theorem handleIncoming_targeted (client : DevClientLike) (hc : client.hasSend = true)
    (p : ClientReportPayload) (lk : Option String) :
    (∀ h st, ServerOut.overlayBroadcast h st ∉ (handleIncoming client p lk).2) ∧
    (∀ m, p.message = some m → m ≠ "" → lk ≠ some (p.key.getD (sliceTo m 800)) →
      ServerOut.overlayToClient (getMessageHeader (p.lang.getD Lang.en)) m ∈
        (handleIncoming client p lk).2) := by
  constructor
  · intro h st
    match hmv : p.message with
    | none =>
      simp [handleIncoming, hmv]
    | some m =>
      by_cases hm0 : m = ""
      · subst hm0
        simp [handleIncoming, hmv]
      · by_cases hl : lk = some (p.key.getD (sliceTo m 800))
        · rw [handleIncoming_eq_hit client p lk m hmv hm0 hl]
          simp [ackOut, hc]
        · rw [handleIncoming_eq_miss client p lk m hmv hm0 hl]
          simp [ackOut, sendErrorOverlay, hc]
  · intro m hm hm0 hl
    rw [handleIncoming_eq_miss client p lk m hm hm0 hl]
    simp [sendErrorOverlay, hc]

/-- Witness for C9 at a concrete connection and payload. -/
theorem handleIncoming_targeted_witness :
    (∀ h st, ServerOut.overlayBroadcast h st ∉
      (handleIncoming ⟨true⟩ ⟨some "m1", some "k1", some Lang.zh⟩ none).2) ∧
    (∀ m, (some "m1" : Option String) = some m → m ≠ "" →
      (none : Option String) ≠ some ((some "k1").getD (sliceTo m 800)) →
      ServerOut.overlayToClient (getMessageHeader ((some Lang.zh).getD Lang.en)) m ∈
        (handleIncoming ⟨true⟩ ⟨some "m1", some "k1", some Lang.zh⟩ none).2) :=
  handleIncoming_targeted ⟨true⟩ rfl ⟨some "m1", some "k1", some Lang.zh⟩ none

/-- Claim C10: a payload with no `message` is dropped silently: no forward,
no acknowledgment, and the connection's dedup slot is unchanged. -/
theorem handleIncoming_malformed (client : DevClientLike) (p : ClientReportPayload)
    (lk : Option String) (h : p.message = none) :
    handleIncoming client p lk = (lk, []) := by
  simp [handleIncoming, h]

/-- Witness for C10 at a concrete malformed payload. -/
theorem handleIncoming_malformed_witness :
    handleIncoming ⟨true⟩ ⟨none, some "k1", some Lang.en⟩ (some "zz") = (some "zz", []) :=
  handleIncoming_malformed ⟨true⟩ ⟨none, some "k1", some Lang.en⟩ (some "zz") rfl

/-! ## Client delivery-queue claims -/

/-- Claim C3: with a live HMR channel, `send` inserts/replaces the event in
the pending map under its key, attempts exactly one immediate send, arms the
retry timer (leaving the backoff delay untouched), and its state effect is
the same whether or not the immediate send would fail. -/
theorem send_submit_spec (env : HotEnv) (s : ClientState) (p : Payload)
    (hs : env.hotSend = true) (hk : p.key ≠ "") :
    mapLookup p.key (send env s p).1.pendingPayloads = some p ∧
    (send env s p).2 = [p] ∧
    (send env s p).1.retryTimerArmed = true ∧
    (send env s p).1.retryDelayMs = s.retryDelayMs ∧
    (send env s p).1 = (send { env with sendOk := false } s p).1 := by
  refine ⟨?_, ?_, send_retryTimerArmed env s p hs, send_retryDelayMs env s p, ?_⟩
  · rw [send_pendingPayloads env s p hs]
    exact mapSet_lookup_self _ _ _
  · simp [send, hs]
  · rfl

/-- Witness for C3: concrete submission into the fresh client state over a
channel whose immediate sends fail. -/
theorem send_submit_spec_witness :
    mapLookup "k1" (send ⟨true, true, false⟩ initialClientState
      ⟨"k1", "m1", Lang.en⟩).1.pendingPayloads = some ⟨"k1", "m1", Lang.en⟩ ∧
    (send ⟨true, true, false⟩ initialClientState ⟨"k1", "m1", Lang.en⟩).2 =
      [⟨"k1", "m1", Lang.en⟩] ∧
    (send ⟨true, true, false⟩ initialClientState ⟨"k1", "m1", Lang.en⟩).1.retryTimerArmed = true ∧
    (send ⟨true, true, false⟩ initialClientState ⟨"k1", "m1", Lang.en⟩).1.retryDelayMs =
      initialClientState.retryDelayMs ∧
    (send ⟨true, true, false⟩ initialClientState ⟨"k1", "m1", Lang.en⟩).1 =
      (send { (⟨true, true, false⟩ : HotEnv) with sendOk := false } initialClientState
        ⟨"k1", "m1", Lang.en⟩).1 :=
  send_submit_spec ⟨true, true, false⟩ initialClientState ⟨"k1", "m1", Lang.en⟩ rfl (by decide)

/-- Claim C2: on every reachable retry-timer fire, every pending event is
attempted, the pending map is unchanged by the attempt, and — the map being
non-empty whenever the timer is armed — the backoff delay is doubled with a
2000ms ceiling and the timer re-armed (were the map empty, the delay would
read 200 and the timer stay disarmed). -/
theorem retryTimerFire_spec (env : HotEnv) (s : ClientState)
    (hr : ClientReachable env s) (ha : s.retryTimerArmed = true) :
    (retryTimerFire s).2 = s.pendingPayloads.map Prod.snd ∧
    (retryTimerFire s).1.pendingPayloads = s.pendingPayloads ∧
    (if s.pendingPayloads ≠ [] then
        (retryTimerFire s).1.retryDelayMs = min (s.retryDelayMs * 2) 2000 ∧
        (retryTimerFire s).1.retryTimerArmed = true
      else
        (retryTimerFire s).1.retryDelayMs = 200 ∧
        (retryTimerFire s).1.retryTimerArmed = false) := by
  have hinv := clientInv_of_reachable env s hr
  have hne : s.pendingPayloads ≠ [] := hinv.1 ha
  have hfst := retryTimerFire_fst_of_ne s hne
  refine ⟨?_, ?_, ?_⟩
  · rw [retryTimerFire_snd]
    simp [flushPendingPayloads, hne]
  · rw [hfst]
    simp
  · rw [if_pos hne, hfst]
    constructor <;> simp

/-- Witness for C2 at the reachable state obtained by one submission. -/
theorem retryTimerFire_spec_witness :
    (retryTimerFire (send ⟨true, true, true⟩ initialClientState ⟨"k1", "m1", Lang.en⟩).1).2 =
      (send ⟨true, true, true⟩ initialClientState
        ⟨"k1", "m1", Lang.en⟩).1.pendingPayloads.map Prod.snd ∧
    (retryTimerFire (send ⟨true, true, true⟩ initialClientState
      ⟨"k1", "m1", Lang.en⟩).1).1.pendingPayloads =
      (send ⟨true, true, true⟩ initialClientState ⟨"k1", "m1", Lang.en⟩).1.pendingPayloads ∧
    (if (send ⟨true, true, true⟩ initialClientState
        ⟨"k1", "m1", Lang.en⟩).1.pendingPayloads ≠ [] then
        (retryTimerFire (send ⟨true, true, true⟩ initialClientState
          ⟨"k1", "m1", Lang.en⟩).1).1.retryDelayMs =
          min ((send ⟨true, true, true⟩ initialClientState
            ⟨"k1", "m1", Lang.en⟩).1.retryDelayMs * 2) 2000 ∧
        (retryTimerFire (send ⟨true, true, true⟩ initialClientState
          ⟨"k1", "m1", Lang.en⟩).1).1.retryTimerArmed = true
      else
        (retryTimerFire (send ⟨true, true, true⟩ initialClientState
          ⟨"k1", "m1", Lang.en⟩).1).1.retryDelayMs = 200 ∧
        (retryTimerFire (send ⟨true, true, true⟩ initialClientState
          ⟨"k1", "m1", Lang.en⟩).1).1.retryTimerArmed = false) :=
  retryTimerFire_spec ⟨true, true, true⟩ _
    (ClientReachable.step ClientReachable.init
      (ClientStep.submit initialClientState ⟨"k1", "m1", Lang.en⟩ (by decide)))
    (by decide)

/-- Claim C4: an acknowledgment carrying key `k` removes `k` from
the pending map; if the map becomes empty the delay is reset to the 200ms
floor and the timer is cancelled; and acknowledging a key that is not
pending leaves the reachable client state unchanged. -/
theorem handleAckEvent_spec (env : HotEnv) (s : ClientState)
    (hr : ClientReachable env s) (k : String) :
    (handleAckEvent s (some k)).pendingPayloads = mapDelete k s.pendingPayloads ∧
    (mapDelete k s.pendingPayloads = [] →
      (handleAckEvent s (some k)).retryDelayMs = 200 ∧
      (handleAckEvent s (some k)).retryTimerArmed = false) ∧
    (k ∉ s.pendingPayloads.map Prod.fst → handleAckEvent s (some k) = s) := by
  obtain ⟨harm, hdelay, hempty, hnd, hmem⟩ := clientInv_of_reachable env s hr
  by_cases hke : k = ""
  · subst hke
    have hno : "" ∉ s.pendingPayloads.map Prod.fst := by
      intro hc
      rcases List.mem_map.mp hc with ⟨e, he, hfst⟩
      exact (hmem e he).2 hfst
    have hdel : mapDelete "" s.pendingPayloads = s.pendingPayloads :=
      mapDelete_not_mem "" _ hno
    rw [handleAckEvent_empty_key, hdel]
    refine ⟨rfl, ?_, fun _ => rfl⟩
    intro hnil
    exact hempty hnil
  · by_cases hnil : mapDelete k s.pendingPayloads = []
    · rw [handleAckEvent_some_of_nil s k hke hnil]
      refine ⟨rfl, fun _ => ⟨rfl, rfl⟩, ?_⟩
      intro hnot
      have hdel := mapDelete_not_mem k _ hnot
      rw [hdel] at hnil ⊢
      obtain ⟨hd200, harmf⟩ := hempty hnil
      cases s with
      | mk pp lb ra rd => simp_all
    · rw [handleAckEvent_some_of_ne s k hke hnil]
      refine ⟨rfl, fun hc => absurd hc hnil, ?_⟩
      intro hnot
      rw [mapDelete_not_mem k _ hnot]

/-- Witness for C4 at the reachable one-pending-payload state and the
pending key. -/
theorem handleAckEvent_spec_witness :
    (handleAckEvent (send ⟨true, true, true⟩ initialClientState
      ⟨"k1", "m1", Lang.en⟩).1 (some "k1")).pendingPayloads =
      mapDelete "k1" (send ⟨true, true, true⟩ initialClientState
        ⟨"k1", "m1", Lang.en⟩).1.pendingPayloads ∧
    (mapDelete "k1" (send ⟨true, true, true⟩ initialClientState
        ⟨"k1", "m1", Lang.en⟩).1.pendingPayloads = [] →
      (handleAckEvent (send ⟨true, true, true⟩ initialClientState
        ⟨"k1", "m1", Lang.en⟩).1 (some "k1")).retryDelayMs = 200 ∧
      (handleAckEvent (send ⟨true, true, true⟩ initialClientState
        ⟨"k1", "m1", Lang.en⟩).1 (some "k1")).retryTimerArmed = false) ∧
    ("k1" ∉ (send ⟨true, true, true⟩ initialClientState
        ⟨"k1", "m1", Lang.en⟩).1.pendingPayloads.map Prod.fst →
      handleAckEvent (send ⟨true, true, true⟩ initialClientState
        ⟨"k1", "m1", Lang.en⟩).1 (some "k1") =
        (send ⟨true, true, true⟩ initialClientState ⟨"k1", "m1", Lang.en⟩).1) :=
  handleAckEvent_spec ⟨true, true, true⟩ _
    (ClientReachable.step ClientReachable.init
      (ClientStep.submit initialClientState ⟨"k1", "m1", Lang.en⟩ (by decide)))
    "k1"

/-- Claim C5: the pending map of every reachable state holds at most one
entry per key; a later submission with the same key replaces the entry
(same lookup result, unchanged size), and the flush/retry path only ever
(re)sends the latest event stored for a key. -/
theorem pendingSet_unique_keys (env : HotEnv) (s : ClientState)
    (hr : ClientReachable env s) (p : Payload) (hs : env.hotSend = true)
    (hk : p.key ≠ "") :
    (s.pendingPayloads.map Prod.fst).Nodup ∧
    mapLookup p.key (send env s p).1.pendingPayloads = some p ∧
    (p.key ∈ s.pendingPayloads.map Prod.fst →
      (send env s p).1.pendingPayloads.length = s.pendingPayloads.length) ∧
    (∀ q ∈ flushPendingPayloads (send env s p).1, q.key = p.key → q = p) := by
  obtain ⟨harm, hdelay, hempty, hnd, hmem⟩ := clientInv_of_reachable env s hr
  have hpend := send_pendingPayloads env s p hs
  refine ⟨hnd, ?_, ?_, ?_⟩
  · rw [hpend]
    exact mapSet_lookup_self _ _ _
  · intro hmem2
    rw [hpend]
    exact mapSet_length_of_mem p.key p _ hmem2
  · intro q hq hqk
    unfold flushPendingPayloads at hq
    rw [hpend] at hq
    rw [if_neg (mapSet_ne_nil p.key p s.pendingPayloads)] at hq
    rcases List.mem_map.mp hq with ⟨e, he, hsnd⟩
    rcases mapSet_mem p.key p s.pendingPayloads hnd e he with rfl | ⟨hin, hne⟩
    · exact hsnd.symm
    · exfalso
      have hek := (hmem e hin).1
      rw [hsnd] at hek
      exact hne (hek.symm.trans hqk)

/-- Witness for C5: resubmitting key `k1` with a new message into the
reachable one-pending-payload state. -/
theorem pendingSet_unique_keys_witness :
    ((send ⟨true, true, true⟩ initialClientState
      ⟨"k1", "m1", Lang.en⟩).1.pendingPayloads.map Prod.fst).Nodup ∧
    mapLookup "k1" (send ⟨true, true, true⟩
      (send ⟨true, true, true⟩ initialClientState ⟨"k1", "m1", Lang.en⟩).1
      ⟨"k1", "m2", Lang.en⟩).1.pendingPayloads = some ⟨"k1", "m2", Lang.en⟩ ∧
    ("k1" ∈ (send ⟨true, true, true⟩ initialClientState
        ⟨"k1", "m1", Lang.en⟩).1.pendingPayloads.map Prod.fst →
      (send ⟨true, true, true⟩
        (send ⟨true, true, true⟩ initialClientState ⟨"k1", "m1", Lang.en⟩).1
        ⟨"k1", "m2", Lang.en⟩).1.pendingPayloads.length =
        (send ⟨true, true, true⟩ initialClientState
          ⟨"k1", "m1", Lang.en⟩).1.pendingPayloads.length) ∧
    (∀ q ∈ flushPendingPayloads (send ⟨true, true, true⟩
        (send ⟨true, true, true⟩ initialClientState ⟨"k1", "m1", Lang.en⟩).1
        ⟨"k1", "m2", Lang.en⟩).1, q.key = "k1" → q = ⟨"k1", "m2", Lang.en⟩) :=
  pendingSet_unique_keys ⟨true, true, true⟩ _
    (ClientReachable.step ClientReachable.init
      (ClientStep.submit initialClientState ⟨"k1", "m1", Lang.en⟩ (by decide)))
    ⟨"k1", "m2", Lang.en⟩ rfl (by decide)

/-- Claim C6: on every reachable state the backoff delay lies within
`[200, 2000]`, and a transition can only decrease it to the 200ms floor,
and only when it is the connect-notification reset or an acknowledgment
that empties the pending set. -/
theorem retryDelay_bounds (env : HotEnv) (s : ClientState)
    (hr : ClientReachable env s) :
    (200 ≤ s.retryDelayMs ∧ s.retryDelayMs ≤ 2000) ∧
    (∀ t, ClientStep env s t → t.retryDelayMs < s.retryDelayMs →
      t.retryDelayMs = 200 ∧ (t = (handleConnectEvent s).1 ∨ t.pendingPayloads = [])) := by
  obtain ⟨harm, hdelay, hempty, hnd, hmem⟩ := clientInv_of_reachable env s hr
  refine ⟨hdelay, ?_⟩
  intro t hstep hlt
  cases hstep with
  | submit p hk =>
    rw [send_retryDelayMs] at hlt
    omega
  | timerFire ha =>
    have hne := harm ha
    rw [retryTimerFire_fst_of_ne s hne] at hlt
    simp only [scheduleRetry_retryDelayMs] at hlt
    exfalso
    rcases Nat.le_total (s.retryDelayMs * 2) 2000 with hle | hle
    · rw [min_eq_left hle] at hlt
      omega
    · rw [min_eq_right hle] at hlt
      omega
  | wsConnect hb ho =>
    exact ⟨rfl, Or.inl rfl⟩
  | ackArrive k hb ho =>
    match k with
    | none =>
      rw [handleAckEvent_none] at hlt
      omega
    | some ks =>
      by_cases hke : ks = ""
      · subst hke
        rw [handleAckEvent_empty_key] at hlt
        omega
      · by_cases hnil : mapDelete ks s.pendingPayloads = []
        · rw [handleAckEvent_some_of_nil s ks hke hnil]
          exact ⟨rfl, Or.inr hnil⟩
        · rw [handleAckEvent_some_of_ne s ks hke hnil] at hlt
          simp at hlt
  | bindListeners =>
    rw [bindHmr_retryDelayMs] at hlt
    omega

/-- Witness for C6 at the reachable state with delay 400 (one submission,
one timer fire), including the delay-decreasing acknowledgment step. -/
theorem retryDelay_bounds_witness :
    (200 ≤ (retryTimerFire (send ⟨true, true, true⟩ initialClientState
        ⟨"k1", "m1", Lang.en⟩).1).1.retryDelayMs ∧
      (retryTimerFire (send ⟨true, true, true⟩ initialClientState
        ⟨"k1", "m1", Lang.en⟩).1).1.retryDelayMs ≤ 2000) ∧
    (∀ t, ClientStep ⟨true, true, true⟩
        (retryTimerFire (send ⟨true, true, true⟩ initialClientState
          ⟨"k1", "m1", Lang.en⟩).1).1 t →
      t.retryDelayMs < (retryTimerFire (send ⟨true, true, true⟩ initialClientState
        ⟨"k1", "m1", Lang.en⟩).1).1.retryDelayMs →
      t.retryDelayMs = 200 ∧
        (t = (handleConnectEvent (retryTimerFire (send ⟨true, true, true⟩
          initialClientState ⟨"k1", "m1", Lang.en⟩).1).1).1 ∨
          t.pendingPayloads = [])) :=
  retryDelay_bounds ⟨true, true, true⟩ _
    (ClientReachable.step
      (ClientReachable.step ClientReachable.init
        (ClientStep.submit initialClientState ⟨"k1", "m1", Lang.en⟩ (by decide)))
      (ClientStep.timerFire _ (by decide)))

/-! ## Warn handler theorems -/

theorem warnHandler_eq (lang : Lang) (dafe : Bool) (w : WarnState) (msg : String)
    (inst : Option ComponentPublicInstance) (trace : String) (now : Nat) :
    warnHandler lang dafe w msg inst trace now =
      if dafe && w.errorSent then (w, none)
      else if !(containsSubstr msg VUE_TRANSITION_WARN) then (w, none)
      else if 500 < now - w.lastSentAt ∨ sliceTo (msg ++ trace) 400 ≠ w.lastSentKey then
        ({ lastSentAt := now, lastSentKey := sliceTo (msg ++ trace) 400, errorSent := true },
          some (warnPayload lang inst trace))
      else (w, none) := rfl

theorem warnHandler_cases (lang : Lang) (dafe : Bool) (w : WarnState) (msg : String)
    (inst : Option ComponentPublicInstance) (trace : String) (now : Nat) :
    (warnHandler lang dafe w msg inst trace now = (w, none) ∧
      ((dafe && w.errorSent) = true ∨ containsSubstr msg VUE_TRANSITION_WARN = false ∨
        ¬(500 < now - w.lastSentAt ∨ sliceTo (msg ++ trace) 400 ≠ w.lastSentKey))) ∨
    (warnHandler lang dafe w msg inst trace now =
        ({ lastSentAt := now, lastSentKey := sliceTo (msg ++ trace) 400, errorSent := true },
          some (warnPayload lang inst trace)) ∧
      (dafe && w.errorSent) = false ∧ containsSubstr msg VUE_TRANSITION_WARN = true ∧
      (500 < now - w.lastSentAt ∨ sliceTo (msg ++ trace) 400 ≠ w.lastSentKey)) := by
  rw [warnHandler_eq]
  by_cases hc1 : (dafe && w.errorSent) = true
  · left
    rw [if_pos hc1]
    exact ⟨rfl, Or.inl hc1⟩
  · have hc1' : (dafe && w.errorSent) = false := by
      revert hc1
      cases dafe && w.errorSent <;> simp
    rw [if_neg hc1]
    by_cases hc2 : containsSubstr msg VUE_TRANSITION_WARN = true
    · rw [if_neg (by simp [hc2])]
      by_cases hc3 : 500 < now - w.lastSentAt ∨ sliceTo (msg ++ trace) 400 ≠ w.lastSentKey
      · right
        rw [if_pos hc3]
        exact ⟨rfl, hc1', hc2, hc3⟩
      · left
        rw [if_neg hc3]
        exact ⟨rfl, Or.inr (Or.inr hc3)⟩
    · left
      have hc2' : containsSubstr msg VUE_TRANSITION_WARN = false := by
        revert hc2
        cases containsSubstr msg VUE_TRANSITION_WARN <;> simp
      rw [if_pos (by simp [hc2'])]
      exact ⟨rfl, Or.inr (Or.inl hc2')⟩

/-- Claim C7: a matching warning produces an outgoing event only if more
than 500ms have elapsed since the last accepted warning or the derived
debounce key differs from `lastSentKey`; two occurrences of the same
warning less than 500ms apart produce at most one event, and the same two
occurrences 600ms apart (one-shot mode off) produce two. -/
theorem warnHandler_debounce_spec (lang : Lang) (dafe : Bool) (w : WarnState)
    (msg : String) (inst : Option ComponentPublicInstance) (trace : String)
    (t₁ t₂ : Nat) :
    (∀ w' p, warnHandler lang dafe w msg inst trace t₁ = (w', some p) →
      500 < t₁ - w.lastSentAt ∨ sliceTo (msg ++ trace) 400 ≠ w.lastSentKey) ∧
    (t₂ - t₁ < 500 →
      ¬((warnHandler lang dafe w msg inst trace t₁).2.isSome = true ∧
        (warnHandler lang dafe (warnHandler lang dafe w msg inst trace t₁).1
          msg inst trace t₂).2.isSome = true)) ∧
    (dafe = false →
      (warnHandler lang false w msg inst trace t₁).2.isSome = true →
      (warnHandler lang false (warnHandler lang false w msg inst trace t₁).1
        msg inst trace (t₁ + 600)).2.isSome = true) := by
  refine ⟨?_, ?_, ?_⟩
  · intro w' p h
    rcases warnHandler_cases lang dafe w msg inst trace t₁ with ⟨heq, _⟩ | ⟨heq, _, _, hc3⟩
    · rw [heq] at h
      simp at h
    · exact hc3
  · intro hlt hboth
    obtain ⟨h1, h2⟩ := hboth
    rcases warnHandler_cases lang dafe w msg inst trace t₁ with ⟨heq, _⟩ | ⟨heq, _, _, _⟩
    · rw [heq] at h1
      simp at h1
    · rw [heq] at h2
      rcases warnHandler_cases lang dafe
          { lastSentAt := t₁, lastSentKey := sliceTo (msg ++ trace) 400, errorSent := true }
          msg inst trace t₂ with ⟨heq2, _⟩ | ⟨heq2, hd1, hd2, hd3⟩
      · rw [heq2] at h2
        simp at h2
      · rcases hd3 with hgt | hne
        · simp only [] at hgt
          omega
        · exact hne rfl
  · intro hdafe h1
    rcases warnHandler_cases lang false w msg inst trace t₁ with ⟨heq, _⟩ | ⟨heq, _, hc2, _⟩
    · rw [heq] at h1
      simp at h1
    · rw [heq]
      rcases warnHandler_cases lang false
          { lastSentAt := t₁, lastSentKey := sliceTo (msg ++ trace) 400, errorSent := true }
          msg inst trace (t₁ + 600) with ⟨heq2, hcond⟩ | ⟨heq2, _⟩
      · exfalso
        rcases hcond with hx | hx | hx
        · simp at hx
        · rw [hc2] at hx
          simp at hx
        · apply hx
          left
          simp only []
          omega
      · rw [heq2]
        simp

/-- Witness for C7: the matching warning accepted from the fresh debounce
state at time 1000 is accepted again 600ms later. -/
theorem warnHandler_debounce_spec_witness :
    (warnHandler Lang.en false initialWarnState VUE_TRANSITION_WARN none "" 1000).2.isSome
      = true ∧
    (warnHandler Lang.en false
      (warnHandler Lang.en false initialWarnState VUE_TRANSITION_WARN none "" 1000).1
      VUE_TRANSITION_WARN none "" 1600).2.isSome = true := by
  have h1 : (warnHandler Lang.en false initialWarnState VUE_TRANSITION_WARN none ""
      1000).2.isSome = true := by decide
  exact ⟨h1, (warnHandler_debounce_spec Lang.en false initialWarnState VUE_TRANSITION_WARN
    none "" 1000 1600).2.2 rfl h1⟩

/-- Claim C8 (amended): before an event leaves the warn handler, its dedup
keys are truncated — the debounce key recorded in `lastSentKey` to the
first 400 characters of `msg ++ trace`, and the delivery-layer key to the
first 800 characters of the outgoing message — while the outgoing message
itself is the full formatted text, not truncated. -/
theorem warnHandler_truncation (lang : Lang) (dafe : Bool) (w : WarnState)
    (msg : String) (inst : Option ComponentPublicInstance) (trace : String)
    (now : Nat) (w' : WarnState) (p : Payload)
    (h : warnHandler lang dafe w msg inst trace now = (w', some p)) :
    p.key = sliceTo p.message 800 ∧
    w'.lastSentKey = sliceTo (msg ++ trace) 400 ∧
    p.message = formatTransitionRootMessage lang (warnContext inst trace) := by
  rcases warnHandler_cases lang dafe w msg inst trace now with ⟨heq, _⟩ | ⟨heq, _, _, _⟩
  · rw [heq] at h
    simp at h
  · rw [heq] at h
    have hw := congrArg Prod.fst h
    have hp := congrArg Prod.snd h
    simp only [] at hw hp
    rw [Option.some.injEq] at hp
    subst hp
    subst hw
    exact ⟨rfl, rfl, rfl⟩

set_option maxRecDepth 100000 in
/-- Witness for C8 (amended) at a concrete accepted warning. -/
theorem warnHandler_truncation_witness :
    ((warnHandler Lang.en false initialWarnState VUE_TRANSITION_WARN none "" 1000).2.getD
      { key := "", message := "", lang := Lang.en }).key =
      sliceTo ((warnHandler Lang.en false initialWarnState VUE_TRANSITION_WARN none ""
        1000).2.getD { key := "", message := "", lang := Lang.en }).message 800 ∧
    (warnHandler Lang.en false initialWarnState VUE_TRANSITION_WARN none ""
      1000).1.lastSentKey = sliceTo (VUE_TRANSITION_WARN ++ "") 400 ∧
    ((warnHandler Lang.en false initialWarnState VUE_TRANSITION_WARN none "" 1000).2.getD
      { key := "", message := "", lang := Lang.en }).message =
      formatTransitionRootMessage Lang.en (warnContext none "") :=
  warnHandler_truncation Lang.en false initialWarnState VUE_TRANSITION_WARN none "" 1000
    _ _ (by decide)

set_option maxRecDepth 100000 in
/-- Counterexample refuting C8 as stated: for a component whose source file
path is 100 characters long, the produced payload's message is 894
characters — the outgoing message is not truncated to the stated 800-char
limit (only the key is). -/
theorem warnHandler_message_not_truncated :
    800 < ((warnHandler Lang.en false initialWarnState VUE_TRANSITION_WARN
      (some { file := some (String.mk (List.replicate 100 'a')), baseURI := none })
      "" 1000).2.getD { key := "", message := "", lang := Lang.en }).message.length ∧
    ((warnHandler Lang.en false initialWarnState VUE_TRANSITION_WARN
      (some { file := some (String.mk (List.replicate 100 'a')), baseURI := none })
      "" 1000).2.getD { key := "", message := "", lang := Lang.en }).key.length = 800 ∧
    ((warnHandler Lang.en false initialWarnState VUE_TRANSITION_WARN
      (some { file := some (String.mk (List.replicate 100 'a')), baseURI := none })
      "" 1000).2.getD { key := "", message := "", lang := Lang.en }).key ≠
    ((warnHandler Lang.en false initialWarnState VUE_TRANSITION_WARN
      (some { file := some (String.mk (List.replicate 100 'a')), baseURI := none })
      "" 1000).2.getD { key := "", message := "", lang := Lang.en }).message := by
  refine ⟨?_, ?_, ?_⟩
  · decide
  · decide
  · decide
